import Mathlib

/-!
# CoreAVR: volatile register accessors

A shallow embedding of `CoreAVR.h`.  The header holds four accessors that cast an
integer address to a `volatile uint8_t *` or `volatile uint16_t *` and dereference
it once, and `_noOpperation`, whose body is the inline assembly `nop`.  The four
accessors are embedded; `_noOpperation` has no C-level body to translate and is left
out.

The data memory is byte addressed: a state maps every address to one byte.  A C
function that loads takes the memory and returns the loaded value; a `void`
function that stores takes the memory and returns the memory after the call.
A `uint16_t` object occupies two consecutive byte cells, least significant byte
first, which is the object representation used by avr-gcc.

Addresses are natural numbers and every cell of the model can be read and written,
so `ptr + 1` never wraps and a statement proved for every address holds in
particular at the addresses of mapped, writable registers.
-/

namespace CoreAVR

/-- One memory cell: a `uint8_t`. -/
abbrev Byte := Fin 256

/-- The byte-addressed data memory. -/
abbrev Memory := Nat → Byte

/-- Conversion of an integer to `uint8_t` (reduction modulo `2^8`), as performed
when a value is passed for a `uint8_t` parameter. -/
def toUInt8 (v : Nat) : Byte := ⟨v % 256, Nat.mod_lt v (by decide)⟩

/-- Conversion of an integer to `uint16_t` (reduction modulo `2^16`). -/
def toUInt16 (v : Nat) : Nat := v % 65536

/-- The lvalue-to-rvalue conversion `*ptr` for `volatile uint8_t *ptr`. -/
def load8 (m : Memory) (ptr : Nat) : Nat := (m ptr).val

/-- The assignment `*ptr = value` for `volatile uint8_t *ptr`. -/
def store8 (m : Memory) (ptr : Nat) (value : Byte) : Memory :=
  fun a => if a = ptr then value else m a

/-- The lvalue-to-rvalue conversion `*ptr` for `volatile uint16_t *ptr`: the two
bytes at `ptr` and `ptr + 1`, low byte first. -/
def load16 (m : Memory) (ptr : Nat) : Nat := (m ptr).val + 256 * (m (ptr + 1)).val

/-- The assignment `*ptr = value` for `volatile uint16_t *ptr`: the low byte goes
to `ptr`, the high byte to `ptr + 1`. -/
def store16 (m : Memory) (ptr : Nat) (value : Nat) : Memory :=
  store8 (store8 m ptr (toUInt8 value)) (ptr + 1) (toUInt8 (value / 256))

/-- Embeds `static inline uint8_t _volatileRegisterReadUInt8(uintptr_t address)`:
`ptr = (volatile uint8_t *)address; return *ptr;` -/
def _volatileRegisterReadUInt8 (m : Memory) (address : Nat) : Nat :=
  let ptr := address
  load8 m ptr

/-- Embeds `static inline void _volatileRegisterWriteUInt8(uintptr_t address, uint8_t value)`:
`ptr = (volatile uint8_t *)address; *ptr = value;` -/
def _volatileRegisterWriteUInt8 (m : Memory) (address : Nat) (value : Nat) : Memory :=
  let ptr := address
  store8 m ptr (toUInt8 value)

/-- Embeds `static inline uint16_t _volatileRegisterReadUInt16(uintptr_t address)`:
`ptr = (volatile uint16_t *)address; return *ptr;` -/
def _volatileRegisterReadUInt16 (m : Memory) (address : Nat) : Nat :=
  let ptr := address
  load16 m ptr

/-- Embeds `static inline void _volatileRegisterWriteUInt16(uintptr_t address, uint16_t value)`:
`ptr = (volatile uint16_t *)address; *ptr = value;` -/
def _volatileRegisterWriteUInt16 (m : Memory) (address : Nat) (value : Nat) : Memory :=
  let ptr := address
  store16 m ptr (toUInt16 value)

/-- The 32-bit little-endian value held in the four bytes starting at `ptr`: what
the doc comment above `_volatileRegisterReadUInt8` ("Read a 32-bit value from a
volatile pointer") describes.  It follows the comment, not the function body. -/
def docComment_load32 (m : Memory) (ptr : Nat) : Nat :=
  (m ptr).val + 256 * (m (ptr + 1)).val + 65536 * (m (ptr + 2)).val
    + 16777216 * (m (ptr + 3)).val

/-- Reading of "the call changes exactly one byte cell", for the memory `before` the
call and the memory `after` it: some cell differs, and every cell that differs is
that one. -/
def changesExactlyOneCell (before after : Memory) : Prop :=
  ∃ B : Nat, after B ≠ before B ∧ ∀ C : Nat, after C ≠ before C → C = B

/-- A memory whose every cell holds `0x00`. -/
def zeroMemory : Memory := fun _ => 0

/-- A memory whose every cell holds `0x01`. -/
def onesMemory : Memory := fun _ => 1

/-! ## Basic facts about the memory primitives -/

theorem toUInt8_val (v : Nat) : (toUInt8 v).val = v % 256 := rfl

theorem toUInt8_val_of_lt {v : Nat} (h : v < 256) : (toUInt8 v).val = v := by
  rw [toUInt8_val]
  exact Nat.mod_eq_of_lt h

theorem store8_same (m : Memory) (p : Nat) (b : Byte) : store8 m p b p = b := by
  simp [store8]

theorem store8_other (m : Memory) (p q : Nat) (b : Byte) (h : q ≠ p) :
    store8 m p b q = m q := by
  simp [store8, h]

theorem store16_low (m : Memory) (p v : Nat) : store16 m p v p = toUInt8 v := by
  unfold store16
  rw [store8_other _ _ _ _ (by omega), store8_same]

theorem store16_high (m : Memory) (p v : Nat) :
    store16 m p v (p + 1) = toUInt8 (v / 256) := by
  unfold store16
  rw [store8_same]

theorem store16_other (m : Memory) (p q v : Nat) (h0 : q ≠ p) (h1 : q ≠ p + 1) :
    store16 m p v q = m q := by
  unfold store16
  rw [store8_other _ _ _ _ h1, store8_other _ _ _ _ h0]

theorem readUInt8_eq (m : Memory) (A : Nat) :
    _volatileRegisterReadUInt8 m A = (m A).val := rfl

theorem readUInt16_eq (m : Memory) (A : Nat) :
    _volatileRegisterReadUInt16 m A = (m A).val + 256 * (m (A + 1)).val := rfl

theorem writeUInt8_eq (m : Memory) (A v : Nat) :
    _volatileRegisterWriteUInt8 m A v = store8 m A (toUInt8 v) := rfl

theorem writeUInt16_eq (m : Memory) (A v : Nat) :
    _volatileRegisterWriteUInt16 m A v = store16 m A (toUInt16 v) := rfl

/-! ## Properties of the accessors -/

/-- C1. 8-bit round trip: for every memory `m`, every address `A` and every
`uint8_t` value `v` (so `0x00` and `0xFF` included), `_volatileRegisterReadUInt8(A)`
evaluated in the memory left by `_volatileRegisterWriteUInt8(A, v)` returns `v`. -/
theorem C1_roundTrip8 (m : Memory) (A v : Nat) (hv : v < 256) :
    _volatileRegisterReadUInt8 (_volatileRegisterWriteUInt8 m A v) A = v := by
  rw [readUInt8_eq, writeUInt8_eq, store8_same]
  exact toUInt8_val_of_lt hv

/-- Witness of C1 at the boundary value `0xFF`, register address `0x25`. -/
theorem C1_roundTrip8_witness :
    255 < 256 ∧
      _volatileRegisterReadUInt8 (_volatileRegisterWriteUInt8 zeroMemory 0x25 255) 0x25
        = 255 :=
  ⟨by decide, C1_roundTrip8 zeroMemory 0x25 255 (by decide)⟩

/-- C2. 16-bit round trip: for every memory `m`, every address `A` and every
`uint16_t` value `v` in `0x0000..0xFFFF`, `_volatileRegisterReadUInt16(A)` evaluated
in the memory left by `_volatileRegisterWriteUInt16(A, v)` returns `v`. -/
theorem C2_roundTrip16 (m : Memory) (A v : Nat) (hv : v < 65536) :
    _volatileRegisterReadUInt16 (_volatileRegisterWriteUInt16 m A v) A = v := by
  rw [readUInt16_eq, writeUInt16_eq, store16_low, store16_high, toUInt8_val, toUInt8_val]
  unfold toUInt16
  omega

/-- Witness of C2 at the boundary value `0xFFFF`, register address `0x84`. -/
theorem C2_roundTrip16_witness :
    65535 < 65536 ∧
      _volatileRegisterReadUInt16 (_volatileRegisterWriteUInt16 zeroMemory 0x84 65535) 0x84
        = 65535 :=
  ⟨by decide, C2_roundTrip16 zeroMemory 0x84 65535 (by decide)⟩

/-- C5. Byte order of the 16-bit read: for every memory `m`, every address `A` and
all `uint8_t` values `lo`, `hi`, after `_volatileRegisterWriteUInt8(A, lo)` and
`_volatileRegisterWriteUInt8(A + 1, hi)`, `_volatileRegisterReadUInt16(A)` returns
`lo + 256 * hi`. -/
theorem C5_read16_littleEndian (m : Memory) (A lo hi : Nat) (hlo : lo < 256)
    (hhi : hi < 256) :
    _volatileRegisterReadUInt16
        (_volatileRegisterWriteUInt8 (_volatileRegisterWriteUInt8 m A lo) (A + 1) hi) A
      = lo + 256 * hi := by
  rw [readUInt16_eq, writeUInt8_eq, writeUInt8_eq, store8_other _ _ _ _ (by omega),
    store8_same, store8_same, toUInt8_val_of_lt hlo, toUInt8_val_of_lt hhi]

/-- Witness of C5: bytes `0x34`, `0x12` at `0x84`, `0x85` read back as `0x1234`. -/
theorem C5_read16_littleEndian_witness :
    0x34 < 256 ∧ 0x12 < 256 ∧
      _volatileRegisterReadUInt16
          (_volatileRegisterWriteUInt8 (_volatileRegisterWriteUInt8 onesMemory 0x84 0x34)
            (0x84 + 1) 0x12) 0x84
        = 0x34 + 256 * 0x12 :=
  ⟨by decide, by decide, C5_read16_littleEndian onesMemory 0x84 0x34 0x12 (by decide) (by decide)⟩

/-- C6. Byte order of the 16-bit write: for every memory `m`, every address `A` and
every `uint16_t` value `v`, after `_volatileRegisterWriteUInt16(A, v)`,
`_volatileRegisterReadUInt8(A)` returns `v mod 256` and
`_volatileRegisterReadUInt8(A + 1)` returns `v div 256`. -/
theorem C6_write16_littleEndian (m : Memory) (A v : Nat) (hv : v < 65536) :
    _volatileRegisterReadUInt8 (_volatileRegisterWriteUInt16 m A v) A = v % 256
    ∧ _volatileRegisterReadUInt8 (_volatileRegisterWriteUInt16 m A v) (A + 1) = v / 256 := by
  rw [readUInt8_eq, readUInt8_eq, writeUInt16_eq, store16_low, store16_high,
    toUInt8_val, toUInt8_val]
  unfold toUInt16
  constructor <;> omega

/-- Witness of C6: `0xABCD` written at `0x84` leaves `0xCD` at `0x84`, `0xAB` at `0x85`. -/
theorem C6_write16_littleEndian_witness :
    0xABCD < 65536 ∧
      _volatileRegisterReadUInt8 (_volatileRegisterWriteUInt16 zeroMemory 0x84 0xABCD) 0x84
        = 0xABCD % 256
      ∧ _volatileRegisterReadUInt8 (_volatileRegisterWriteUInt16 zeroMemory 0x84 0xABCD)
          (0x84 + 1) = 0xABCD / 256 :=
  ⟨by decide, C6_write16_littleEndian zeroMemory 0x84 0xABCD (by decide)⟩

/-- C8, as stated, fails: in the memory whose every cell holds `0x01` the four bytes
starting at address `0` hold the 32-bit value `0x01010101`, and
`_volatileRegisterReadUInt8(0)` returns `1`. -/
theorem C8_counterexample :
    docComment_load32 onesMemory 0 = 0x01010101
    ∧ _volatileRegisterReadUInt8 onesMemory 0 = 1
    ∧ ¬ (_volatileRegisterReadUInt8 onesMemory 0 = docComment_load32 onesMemory 0) := by
  refine ⟨by decide, by decide, by decide⟩

/-- C8, amended. `_volatileRegisterReadUInt8` reads an 8-bit value: for every memory
`m` and address `A` the result is the byte held in the single cell at `A`, it is at
most `0xFF`, and it is the same in any memory that agrees with `m` at `A`, whatever
the cells `A + 1`, `A + 2`, `A + 3` hold. -/
theorem C8_read8_is_8bit (m : Memory) (A : Nat) :
    _volatileRegisterReadUInt8 m A = (m A).val
    ∧ _volatileRegisterReadUInt8 m A ≤ 0xFF
    ∧ ∀ m2 : Memory, m2 A = m A →
        _volatileRegisterReadUInt8 m2 A = _volatileRegisterReadUInt8 m A := by
  refine ⟨rfl, ?_, ?_⟩
  · have h := (m A).isLt
    rw [readUInt8_eq]
    omega
  · intro m2 h
    rw [readUInt8_eq, readUInt8_eq, h]

/-- Witness of the amended C8: the all-`0x00` and all-`0x01` memories, made to agree
at address `7`, give the same 8-bit read there. -/
theorem C8_read8_is_8bit_witness :
    _volatileRegisterReadUInt8 (_volatileRegisterWriteUInt8 onesMemory 7 0) 7
      = _volatileRegisterReadUInt8 zeroMemory 7 :=
  (C8_read8_is_8bit zeroMemory 7).2.2 (_volatileRegisterWriteUInt8 onesMemory 7 0) (by decide)

/-- C9, as stated, fails: in the memory whose every cell holds `0x01`,
`_volatileRegisterWriteUInt8(0x25, 1)` stores the byte already present, so no cell
changes and the call does not change exactly one byte cell. -/
theorem C9_counterexample :
    ¬ changesExactlyOneCell onesMemory (_volatileRegisterWriteUInt8 onesMemory 0x25 1) := by
  rintro ⟨B, hB, _⟩
  apply hB
  rw [writeUInt8_eq]
  unfold store8
  split <;> rfl

/-- C9, amended. Frame of the 8-bit write: for every memory `m`, address `A` and
value `v`, after `_volatileRegisterWriteUInt8(A, v)` the cell `A` holds `v` (as a
`uint8_t`), every address `B` different from `A` holds the same byte as before the
call and `_volatileRegisterReadUInt8(B)` returns what it returned before; the call
changes exactly one byte cell when the cell `A` held another byte, and no cell at
all when it already held `v`. -/
theorem C9_write8_frame (m : Memory) (A v B : Nat) (hB : B ≠ A) :
    (_volatileRegisterWriteUInt8 m A v A).val = v % 256
    ∧ _volatileRegisterWriteUInt8 m A v B = m B
    ∧ _volatileRegisterReadUInt8 (_volatileRegisterWriteUInt8 m A v) B
        = _volatileRegisterReadUInt8 m B
    ∧ ((m A).val ≠ v % 256 → changesExactlyOneCell m (_volatileRegisterWriteUInt8 m A v))
    ∧ ((m A).val = v % 256 → _volatileRegisterWriteUInt8 m A v = m) := by
  have hA : (_volatileRegisterWriteUInt8 m A v A).val = v % 256 := by
    rw [writeUInt8_eq, store8_same, toUInt8_val]
  have hframe : ∀ C : Nat, C ≠ A → _volatileRegisterWriteUInt8 m A v C = m C := by
    intro C hC
    rw [writeUInt8_eq, store8_other _ _ _ _ hC]
  refine ⟨hA, hframe B hB, ?_, ?_, ?_⟩
  · rw [readUInt8_eq, readUInt8_eq, hframe B hB]
  · intro hne
    refine ⟨A, ?_, ?_⟩
    · intro heq
      apply hne
      rw [← heq, hA]
    · intro C hC
      by_contra hCA
      exact hC (hframe C hCA)
  · intro heq
    funext C
    by_cases hC : C = A
    · subst hC
      apply Fin.ext
      rw [hA, heq]
    · exact hframe C hC

/-- Witness of the amended C9: a write of `0xFF` at `0x25` in the all-`0x01` memory
changes exactly one cell and leaves the neighbour `0x26` alone. -/
theorem C9_write8_frame_witness :
    0x26 ≠ 0x25
    ∧ changesExactlyOneCell onesMemory (_volatileRegisterWriteUInt8 onesMemory 0x25 0xFF)
    ∧ _volatileRegisterWriteUInt8 onesMemory 0x25 0xFF 0x26 = onesMemory 0x26 :=
  ⟨by decide,
    (C9_write8_frame onesMemory 0x25 0xFF 0x26 (by decide)).2.2.2.1 (by decide),
    (C9_write8_frame onesMemory 0x25 0xFF 0x26 (by decide)).2.1⟩

/-- C10. Frame of the 16-bit write: for every memory `m`, address `A` and value `v`,
`_volatileRegisterWriteUInt16(A, v)` stores into the cells `A` and `A + 1` only:
every address `B` with `B ≠ A` and `B ≠ A + 1` holds the same byte after the call
as before it. -/
theorem C10_write16_frame (m : Memory) (A v B : Nat) (h0 : B ≠ A) (h1 : B ≠ A + 1) :
    _volatileRegisterWriteUInt16 m A v B = m B := by
  rw [writeUInt16_eq]
  exact store16_other m A B _ h0 h1

/-- Witness of C10: a write of `0xFFFF` at `0x84` leaves the cell `0x83` alone. -/
theorem C10_write16_frame_witness :
    0x83 ≠ 0x84 ∧ 0x83 ≠ 0x84 + 1
    ∧ _volatileRegisterWriteUInt16 onesMemory 0x84 0xFFFF 0x83 = onesMemory 0x83 :=
  ⟨by decide, by decide, C10_write16_frame onesMemory 0x84 0xFFFF 0x83 (by decide) (by decide)⟩

end CoreAVR
